import Mathlib

/-!
Verification of the helm-chart release script (helm-chart/build.py).

The script is embedded shallowly:

* Python strings are `Str := List Char`; Python `split`, `strip` and the
  `os.path` helpers the script uses are given as executable Lean functions.
* The external version-control client is an oracle `Git` with a `log` and a
  `diff` operation; `Except.error` stands for a subprocess invocation that
  exits with a non-zero status (`subprocess.check_output` raising), which the
  script never catches.
* The container build tool is not run; instead the exact command data the
  script would pass to it (tag, build argument, build path) is recorded in a
  trace, together with the pushes and the skip log messages.
* The two YAML documents are structures holding the fields the script
  touches plus an untouched remainder.
* The `for image in images` loop of `build_images` is modelled as the
  concatenation of per-image contributions, with the first failing
  invocation aborting the whole loop, as `subprocess.check_output` does.
-/

abbrev Str := List Char

def str (s : String) : Str := s.data

/-- Python `s.split(sep)` for a one-character separator: always returns a
non-empty list, `"".split(sep) == [""]`. -/
def splitOnChar (sep : Char) : Str → List Str
  | [] => [[]]
  | c :: cs =>
    if c = sep then [] :: splitOnChar sep cs
    else
      match splitOnChar sep cs with
      | [] => [[c]]
      | h :: t => (c :: h) :: t

/-- The ASCII whitespace characters Python `str.strip()` removes. -/
def isPySpace (c : Char) : Bool :=
  c = ' ' || c = '\t' || c = '\n' || c = '\r' || c = '\x0b' || c = '\x0c'

/-- Python `s.strip()`. -/
def pyStrip (s : Str) : Str :=
  ((s.dropWhile isPySpace).reverse.dropWhile isPySpace).reverse

/-- Model of `os.path.join` for a relative second component. -/
def pathJoin (a b : Str) : Str := a ++ '/' :: b

/-- Model of `os.path.dirname` for a normalized absolute path without a trailing
slash, the shape of the paths the script builds. -/
def pathDirname (p : Str) : Str :=
  ((p.reverse.dropWhile (fun c => c ≠ '/')).drop 1).reverse

/-! ## Module-level path constants of build.py

`BASEPATH` (the directory holding build.py) is kept as a parameter `base`;
the other constants are derived from it exactly as the script derives them.
-/

def NAME : Str := str "binderhub"

def CHARTPATH (base : Str) : Str := pathJoin base (str "binderhub")

def ROOTPATH (base : Str) : Str := pathDirname base

def PYPKGPATH (base : Str) : Str := pathJoin (ROOTPATH base) NAME

def SETUP_PY (base : Str) : Str := pathJoin (ROOTPATH base) (str "setup.py")

def IMAGE_PATH (base : Str) : Str := pathJoin (pathJoin base (str "images")) NAME

/-- IMAGE_FILES = [SETUP_PY, PYPKGPATH, IMAGE_PATH]. -/
def IMAGE_FILES (base : Str) : List Str :=
  [SETUP_PY base, PYPKGPATH base, IMAGE_PATH base]

/-- CHART_FILES = IMAGE_FILES + [CHARTPATH]. -/
def CHART_FILES (base : Str) : List Str :=
  IMAGE_FILES base ++ [CHARTPATH base]

/-! ## The version-control oracle -/

/-- The external git client. `log paths` models
`check_output(["git", "log", "-n", "1", "--pretty=format:%h", "--"] + paths)`
and `diff paths range` models
`check_output(["git", "diff", "--name-only", range, "--"] + paths)`;
`Except.error` is a non-zero exit status. -/
structure Git where
  log : List Str → Except Str Str
  diff : List Str → Str → Except Str Str

/-- Embeds `last_git_modified(paths)`: the short hash of the last commit on the
paths; the subprocess failure, if any, propagates. -/
def last_git_modified (G : Git) (paths : List Str) : Except Str Str :=
  G.log paths

/-- Embeds `path_changed(paths, commit_range)`: the decoded diff output, stripped,
compared against the empty string. -/
def path_changed (G : Git) (paths : List Str) (commit_range : Str) :
    Except Str Bool :=
  (G.diff paths commit_range).map fun out => !(pyStrip out).isEmpty

/-! ## build_images -/

/-- One `docker build` invocation: the `-t` tag, the
`--build-arg BINDERHUB_VERSION=...` argument, and the build context path. -/
structure DockerCmd where
  tag : Str
  buildArg : Str
  path : Str
deriving DecidableEq

/-- Trace of one `build_images` run: the `docker build` invocations, the
`docker push` image specs, and the skip messages printed. -/
structure BuildImagesOut where
  builds : List DockerCmd
  pushes : List Str
  logs : List Str
deriving DecidableEq

/-- The printed message `"Skipping {}, not touched in {}".format(image, commit_range)`. -/
def skipMsg (image commit_range : Str) : Str :=
  str "Skipping " ++ image ++ str ", not touched in " ++ commit_range

/-- One iteration of the `for image in images` loop of `build_images`.
Python `if commit_range:` is false both for `None` and for the empty
string, hence the two bypass branches. -/
def build_one (G : Git) (base pfx img : Str) (commit_range : Option Str)
    (push : Bool) : Except Str BuildImagesOut :=
  let image_path := pathJoin (pathJoin base (str "images")) img
  let doBuild : Except Str BuildImagesOut :=
    (last_git_modified G (IMAGE_FILES base)).map fun tag =>
      let image_spec := pfx ++ img ++ ':' :: tag
      ⟨[⟨image_spec, str "BINDERHUB_VERSION=" ++ tag, image_path⟩],
        if push then [image_spec] else [], []⟩
  match commit_range with
  | none => doBuild
  | some r =>
    if r.isEmpty then doBuild
    else
      (path_changed G (IMAGE_FILES base) r).bind fun changed =>
        if changed then doBuild
        else Except.ok ⟨[], [], [skipMsg img r]⟩

/-- Embeds `build_images(prefix, images, commit_range, push)` as the concatenated
per-image contributions. -/
def build_images (G : Git) (base pfx : Str) (images : List Str)
    (commit_range : Option Str) (push : Bool) : Except Str BuildImagesOut :=
  match images with
  | [] => Except.ok ⟨[], [], []⟩
  | img :: rest =>
    (build_one G base pfx img commit_range push).bind fun cur =>
      (build_images G base pfx rest commit_range push).map fun out =>
        ⟨cur.builds ++ out.builds, cur.pushes ++ out.pushes,
          cur.logs ++ out.logs⟩

/-! ## The two YAML documents and their rewrites -/

/-- The chart values document: the `image.name` and `image.tag` fields the
script writes, plus the rest of the document, which the round-tripping YAML
load/dump leaves unchanged. -/
structure ValuesDoc where
  imageName : Str
  imageTag : Str
  rest : List (Str × Str)
deriving DecidableEq

/-- The chart metadata document: the `version` field plus the untouched
remainder. -/
structure ChartDoc where
  version : Str
  rest : List (Str × Str)
deriving DecidableEq

/-- Embeds `build_values(prefix)`: sets `image.name = prefix + NAME` and
`image.tag = last_git_modified(IMAGE_FILES)`. -/
def build_values (G : Git) (base pfx : Str) (values : ValuesDoc) :
    Except Str ValuesDoc :=
  (last_git_modified G (IMAGE_FILES base)).map fun tag =>
    { values with imageName := pfx ++ NAME, imageTag := tag }

/-- Embeds `build_chart()`: stamps
`chart["version"] = chart["version"].split("-")[0] + "-" + version` with
`version = last_git_modified([BASEPATH] + IMAGE_FILES)`, and returns the
pre-update `raw_version` alongside the updated document. -/
def build_chart (G : Git) (base : Str) (chart : ChartDoc) :
    Except Str (ChartDoc × Str) :=
  (last_git_modified G (base :: IMAGE_FILES base)).map fun version =>
    ({ chart with
        version := (splitOnChar '-' chart.version).headD [] ++ '-' :: version },
      chart.version)

/-! ## The build subcommand of main -/

/-- Result of `main` on the `build` subcommand: the image trace, the two
rewritten documents, the chart version returned by `build_chart`, and
whether `publish_pages` was invoked (`if args.push:`). -/
structure BuildResult where
  images : BuildImagesOut
  values : ValuesDoc
  chart : ChartDoc
  chart_version : Str
  publishInvoked : Bool
deriving DecidableEq

/-- Embeds `main` on `build`: `build_images(args.image_prefix, ["binderhub"],
args.commit_range, args.push)`, then `build_values`, then `build_chart`,
then `publish_pages()` exactly when `args.push` is set. -/
def run_build (G : Git) (base image_pfx : Str) (commit_range : Option Str)
    (push : Bool) (values0 : ValuesDoc) (chart0 : ChartDoc) :
    Except Str BuildResult :=
  (build_images G base image_pfx [NAME] commit_range push).bind fun imgs =>
    (build_values G base image_pfx values0).bind fun vals =>
      (build_chart G base chart0).map fun res =>
        ⟨imgs, vals, res.1, res.2, push⟩

/-! ## A concrete model of the git log facility

The git client itself is not part of this repository; where a claim needs
its behaviour, it is modelled from the spec.
-/

/-- A commit: its abbreviated hash and the files it touched. -/
structure Commit where
  hash : Str
  files : List Str
deriving DecidableEq

/-- A repository history, most recent commit first, as `git log` lists
them. -/
abbrev Repo := List Commit

/-- A pathspec `p` covers a file `f` when it names it or a directory
containing it. -/
def pathCovers (p f : Str) : Bool :=
  p == f || List.isPrefixOf (p ++ ['/']) f

/-- A commit touches one of `paths` when some path covers one of its
files. -/
def touches (c : Commit) (paths : List Str) : Bool :=
  paths.any fun p => c.files.any fun f => pathCovers p f

/-- Modelled from the spec: the version-control log facility, "limited to
the most recent entry touching any of `paths`, returns its abbreviated
identifier. Fails if no such entry exists (empty repository history)". -/
def gitLogRepo (repo : Repo) (paths : List Str) : Except Str Str :=
  match repo.find? (fun c => touches c paths) with
  | some c => Except.ok c.hash
  | none => Except.error (str "git log: no entry touching the given paths")

/-- The git oracle induced by a repository history. The diff facility is
not needed by the claims settled against this model. -/
def gitOfRepo (repo : Repo) : Git :=
  { log := gitLogRepo repo
    diff := fun _ _ => Except.error (str "diff not modelled") }

/-- From the spec words: "the portion of the old version before its first
hyphen" (`versionPrefix`). -/
def beforeFirstHyphen (v : Str) : Str := v.takeWhile (fun c => c ≠ '-')

deriving instance DecidableEq for Except

/-! ## Lemmas about the Python string helpers -/

theorem splitOnChar_ne_nil (sep : Char) (l : Str) : splitOnChar sep l ≠ [] := by
  induction l with
  | nil => simp [splitOnChar]
  | cons c cs ih =>
    simp only [splitOnChar]
    by_cases h : c = sep
    · simp [h]
    · simp only [if_neg h]
      cases hs : splitOnChar sep cs with
      | nil => simp
      | cons a t => simp

theorem splitOnChar_headD (sep : Char) (l : Str) :
    (splitOnChar sep l).headD [] = l.takeWhile (fun c => c ≠ sep) := by
  induction l with
  | nil => simp [splitOnChar]
  | cons c cs ih =>
    simp only [splitOnChar, List.takeWhile]
    by_cases h : c = sep
    · simp [h]
    · simp only [if_neg h]
      cases hs : splitOnChar sep cs with
      | nil => exact absurd hs (splitOnChar_ne_nil sep cs)
      | cons a t =>
        rw [hs] at ih
        simp only [List.headD_cons] at ih
        simp [h, ih]

theorem mem_takeWhile_ne (sep : Char) (l : Str) :
    ∀ c ∈ l.takeWhile (fun c => c ≠ sep), c ≠ sep := by
  intro c hc
  have h2 := List.mem_takeWhile_imp hc
  simpa using h2

theorem takeWhile_append_sep (sep : Char) (p r : Str)
    (hp : ∀ c ∈ p, c ≠ sep) :
    (p ++ sep :: r).takeWhile (fun c => c ≠ sep) = p := by
  induction p with
  | nil =>
    rw [List.nil_append, List.takeWhile_cons_of_neg (by simp)]
  | cons c cs ih =>
    have hc : c ≠ sep := hp c (List.mem_cons_self c cs)
    rw [List.cons_append, List.takeWhile_cons_of_pos (by simpa using hc),
      ih (fun x hx => hp x (List.mem_cons_of_mem c hx))]

theorem stamp_head (sep : Char) (v w : Str) :
    (splitOnChar sep ((splitOnChar sep v).headD [] ++ sep :: w)).headD []
      = (splitOnChar sep v).headD [] := by
  simp only [splitOnChar_headD]
  exact takeWhile_append_sep sep _ w (mem_takeWhile_ne sep v)

theorem except_map_ok {ε α β : Type} (f : α → β) (a : α) :
    (Except.ok a : Except ε α).map f = Except.ok (f a) := rfl

theorem except_map_error {ε α β : Type} (f : α → β) (e : ε) :
    (Except.error e : Except ε α).map f = Except.error e := rfl

theorem except_bind_ok {ε α β : Type} (f : α → Except ε β) (a : α) :
    (Except.ok a : Except ε α).bind f = f a := rfl

theorem except_bind_error {ε α β : Type} (f : α → Except ε β) (e : ε) :
    (Except.error e : Except ε α).bind f = Except.error e := rfl

/-! ## Concrete oracles used by the witnesses and counterexamples -/

/-- A git oracle whose log always reports the hash `h` and whose diff
always succeeds with empty output. -/
def okGit (h : Str) : Git :=
  { log := fun _ => Except.ok h
    diff := fun _ _ => Except.ok [] }

/-- A git oracle whose diff always succeeds with output `o`. -/
def diffGit (o : Str) : Git :=
  { log := fun _ => Except.ok (str "abc1234")
    diff := fun _ _ => Except.ok o }

/-! ## Claim C1 -/

/-- Claim C1: for every old chart version string and every identifier the
version stamper returns, `build_chart` writes back a version equal to the
portion of the old version before its first hyphen, followed by a hyphen
and the new identifier; the pre-hyphen part is preserved by every
rewrite. -/
theorem c1_chart_version_stamp (G : Git) (base : Str) (chart : ChartDoc)
    (v : Str)
    (hlog : last_git_modified G (base :: IMAGE_FILES base) = Except.ok v) :
    build_chart G base chart
        = Except.ok
            ({ chart with version := beforeFirstHyphen chart.version ++ '-' :: v },
              chart.version)
      ∧ beforeFirstHyphen (beforeFirstHyphen chart.version ++ '-' :: v)
        = beforeFirstHyphen chart.version := by
  constructor
  · unfold build_chart
    rw [hlog, except_map_ok, splitOnChar_headD]
    rfl
  · exact takeWhile_append_sep '-' _ v (mem_takeWhile_ne '-' chart.version)

theorem c1_chart_version_stamp_witness :
    build_chart (okGit (str "def456")) (str "/r/helm-chart")
        ⟨str "1.2.3-abc123", []⟩
      = Except.ok (⟨str "1.2.3-def456", []⟩, str "1.2.3-abc123") := by
  have h := c1_chart_version_stamp (okGit (str "def456")) (str "/r/helm-chart")
    ⟨str "1.2.3-abc123", []⟩ (str "def456") (by decide)
  rw [h.1]
  decide

/-! ## Claim C2 -/

/-- Claim C2: `build_chart` returns the version string that was in the
chart metadata document before the update, for every input document with a
version field. -/
theorem c2_returns_pre_update_version (G : Git) (base : Str)
    (chart : ChartDoc) (v : Str)
    (hlog : last_git_modified G (base :: IMAGE_FILES base) = Except.ok v) :
    (build_chart G base chart).map (fun r => r.2) = Except.ok chart.version := by
  unfold build_chart
  rw [hlog, except_map_ok, except_map_ok]

theorem c2_returns_pre_update_version_witness :
    (build_chart (okGit (str "def456")) (str "/r/helm-chart")
        ⟨str "1.2.3-abc123", []⟩).map (fun r => r.2)
      = Except.ok (str "1.2.3-abc123") :=
  c2_returns_pre_update_version (okGit (str "def456")) (str "/r/helm-chart")
    ⟨str "1.2.3-abc123", []⟩ (str "def456") (by decide)

/-! ## Behaviour of the build_images loop -/

theorem build_one_skip (G : Git) (base pfx img : Str) (push : Bool)
    (r out : Str) (hr : r ≠ [])
    (hdiff : G.diff (IMAGE_FILES base) r = Except.ok out)
    (hempty : pyStrip out = []) :
    build_one G base pfx img (some r) push
      = Except.ok ⟨[], [], [skipMsg img r]⟩ := by
  have hre : r.isEmpty = false := by
    cases r with
    | nil => exact absurd rfl hr
    | cons a l => rfl
  unfold build_one path_changed
  simp only [hre, Bool.false_eq_true, if_false, hdiff, except_map_ok, hempty]
  rfl

theorem build_one_none (G : Git) (base pfx img : Str) (push : Bool) (v : Str)
    (hlog : last_git_modified G (IMAGE_FILES base) = Except.ok v) :
    build_one G base pfx img none push
      = Except.ok ⟨[⟨pfx ++ img ++ ':' :: v, str "BINDERHUB_VERSION=" ++ v,
          pathJoin (pathJoin base (str "images")) img⟩],
          if push then [pfx ++ img ++ ':' :: v] else [], []⟩ := by
  unfold build_one
  rw [hlog]
  rfl

theorem build_one_some_nil (G : Git) (base pfx img : Str) (push : Bool)
    (v : Str)
    (hlog : last_git_modified G (IMAGE_FILES base) = Except.ok v) :
    build_one G base pfx img (some []) push
      = Except.ok ⟨[⟨pfx ++ img ++ ':' :: v, str "BINDERHUB_VERSION=" ++ v,
          pathJoin (pathJoin base (str "images")) img⟩],
          if push then [pfx ++ img ++ ':' :: v] else [], []⟩ := by
  unfold build_one
  rw [hlog]
  rfl

theorem build_images_skip (G : Git) (base pfx : Str) (images : List Str)
    (push : Bool) (r out : Str) (hr : r ≠ [])
    (hdiff : G.diff (IMAGE_FILES base) r = Except.ok out)
    (hempty : pyStrip out = []) :
    build_images G base pfx images (some r) push
      = Except.ok ⟨[], [], images.map (fun img => skipMsg img r)⟩ := by
  induction images with
  | nil => rfl
  | cons img rest ih =>
    unfold build_images
    rw [build_one_skip G base pfx img push r out hr hdiff hempty,
      except_bind_ok, ih, except_map_ok]
    rfl

theorem build_images_none (G : Git) (base pfx : Str) (images : List Str)
    (push : Bool) (v : Str)
    (hlog : last_git_modified G (IMAGE_FILES base) = Except.ok v) :
    build_images G base pfx images none push
      = Except.ok
          ⟨images.map (fun img => ⟨pfx ++ img ++ ':' :: v,
              str "BINDERHUB_VERSION=" ++ v,
              pathJoin (pathJoin base (str "images")) img⟩),
            if push then images.map (fun img => pfx ++ img ++ ':' :: v)
            else [], []⟩ := by
  induction images with
  | nil => cases push <;> rfl
  | cons img rest ih =>
    unfold build_images
    rw [build_one_none G base pfx img push v hlog, except_bind_ok, ih,
      except_map_ok]
    cases push <;> rfl

/-! ## Claim C3 -/

/-- Claim C3 (amended to non-empty commit ranges): when a non-empty commit
range is supplied and the change detector reports the image-contributing
paths unchanged over it, the container build tool is not invoked for any
component, no image reference is produced, and the skip is reported by a
log message per component; when no commit range is supplied the change
check is bypassed and every component is built. -/
theorem c3_skip_policy (G : Git) (base pfx : Str) (images : List Str)
    (push : Bool) (r out v : Str) (hr : r ≠ [])
    (hdiff : G.diff (IMAGE_FILES base) r = Except.ok out)
    (hempty : pyStrip out = [])
    (hlog : last_git_modified G (IMAGE_FILES base) = Except.ok v) :
    build_images G base pfx images (some r) push
        = Except.ok ⟨[], [], images.map (fun img => skipMsg img r)⟩
      ∧ (build_images G base pfx images none push).map
          (fun o => o.builds.length)
        = Except.ok images.length := by
  refine ⟨build_images_skip G base pfx images push r out hr hdiff hempty, ?_⟩
  rw [build_images_none G base pfx images push v hlog, except_map_ok]
  simp

theorem c3_skip_policy_witness :
    build_images (diffGit []) (str "/r/helm-chart") (str "jupyterhub/k8s-")
        [NAME] (some (str "a..b")) false
        = Except.ok ⟨[], [], [skipMsg NAME (str "a..b")]⟩
      ∧ (build_images (diffGit []) (str "/r/helm-chart")
          (str "jupyterhub/k8s-") [NAME] none false).map
            (fun o => o.builds.length)
        = Except.ok 1 := by
  have h := c3_skip_policy (diffGit []) (str "/r/helm-chart")
    (str "jupyterhub/k8s-") [NAME] false (str "a..b") [] (str "abc1234")
    (by decide) (by decide) (by decide) (by decide)
  exact ⟨h.1, h.2⟩

/-- Claim C3 counterexample: the empty string supplied as the commit range
is a range over which the change detector reports the image-contributing
paths unchanged, yet the build tool is still invoked and no skip message
is printed, because Python `if commit_range:` is false for the empty
string. -/
theorem c3_counterexample :
    path_changed (okGit (str "abc1234"))
        (IMAGE_FILES (str "/r/helm-chart")) [] = Except.ok false
      ∧ (build_images (okGit (str "abc1234")) (str "/r/helm-chart")
          (str "jupyterhub/k8s-") [NAME] (some []) false).map
            (fun o => (o.builds.length, o.logs))
        = Except.ok (1, []) := by decide

/-! ## Claim C4 -/

theorem build_one_builds (G : Git) (base pfx img : Str) (cr : Option Str)
    (push : Bool) (v : Str) (o : BuildImagesOut)
    (hlog : last_git_modified G (IMAGE_FILES base) = Except.ok v)
    (ho : build_one G base pfx img cr push = Except.ok o) :
    ∀ cmd ∈ o.builds,
      cmd = ⟨pfx ++ img ++ ':' :: v, str "BINDERHUB_VERSION=" ++ v,
        pathJoin (pathJoin base (str "images")) img⟩ := by
  cases cr with
  | none =>
    rw [build_one_none G base pfx img push v hlog] at ho
    injection ho with ho
    subst ho
    intro cmd hcmd
    simpa using hcmd
  | some r =>
    by_cases hrnil : r = []
    · subst hrnil
      rw [build_one_some_nil G base pfx img push v hlog] at ho
      injection ho with ho
      subst ho
      intro cmd hcmd
      simpa using hcmd
    · have hre : r.isEmpty = false := by
        cases r with
        | nil => exact absurd rfl hrnil
        | cons a l => rfl
      unfold build_one at ho
      rw [hlog] at ho
      simp only [hre, Bool.false_eq_true, if_false] at ho
      cases hd : G.diff (IMAGE_FILES base) r with
      | error e =>
        rw [path_changed, hd, except_map_error, except_bind_error] at ho
        exact absurd ho (by simp)
      | ok out =>
        rw [path_changed, hd, except_map_ok, except_bind_ok] at ho
        cases hb : (pyStrip out).isEmpty with
        | true =>
          rw [hb] at ho
          injection ho with ho
          subst ho
          intro cmd hcmd
          simp at hcmd
        | false =>
          rw [hb] at ho
          injection ho with ho
          subst ho
          intro cmd hcmd
          simpa using hcmd

theorem build_images_builds (G : Git) (base pfx : Str) (images : List Str)
    (cr : Option Str) (push : Bool) (v : Str) (out : BuildImagesOut)
    (hlog : last_git_modified G (IMAGE_FILES base) = Except.ok v)
    (hout : build_images G base pfx images cr push = Except.ok out) :
    ∀ cmd ∈ out.builds, ∃ img ∈ images,
      cmd = ⟨pfx ++ img ++ ':' :: v, str "BINDERHUB_VERSION=" ++ v,
        pathJoin (pathJoin base (str "images")) img⟩ := by
  induction images generalizing out with
  | nil =>
    injection hout with h
    subst h
    intro cmd hcmd
    simp at hcmd
  | cons img rest ih =>
    unfold build_images at hout
    cases h1 : build_one G base pfx img cr push with
    | error e =>
      rw [h1, except_bind_error] at hout
      exact absurd hout (by simp)
    | ok cur =>
      rw [h1, except_bind_ok] at hout
      cases h2 : build_images G base pfx rest cr push with
      | error e =>
        rw [h2, except_map_error] at hout
        exact absurd hout (by simp)
      | ok o2 =>
        rw [h2, except_map_ok] at hout
        injection hout with h
        subst h
        intro cmd hcmd
        simp only [List.mem_append] at hcmd
        rcases hcmd with hc | hc
        · exact ⟨img, List.mem_cons_self img rest,
            build_one_builds G base pfx img cr push v cur hlog h1 cmd hc⟩
        · obtain ⟨i, hi, hcc⟩ := ih o2 h2 cmd hc
          exact ⟨i, List.mem_cons_of_mem img hi, hcc⟩

/-- Claim C4: every container build invocation the script performs uses the
tag `pfx ++ image ++ ":" ++ v` and a build argument carrying `v`, where `v`
is the identifier the version stamper returned for `IMAGE_FILES`, and
`build_values` writes `image.name = pfx ++ NAME` and `image.tag = v` into
the values document. -/
theorem c4_tag_and_values (G : Git) (base pfx : Str) (images : List Str)
    (cr : Option Str) (push : Bool) (v : Str) (out : BuildImagesOut)
    (cmd : DockerCmd) (values : ValuesDoc)
    (hlog : last_git_modified G (IMAGE_FILES base) = Except.ok v)
    (hout : build_images G base pfx images cr push = Except.ok out)
    (hcmd : cmd ∈ out.builds) :
    (∃ img ∈ images, cmd.tag = pfx ++ img ++ ':' :: v
        ∧ cmd.buildArg = str "BINDERHUB_VERSION=" ++ v)
      ∧ build_values G base pfx values
        = Except.ok { values with imageName := pfx ++ NAME, imageTag := v } := by
  constructor
  · obtain ⟨img, hi, hc⟩ :=
      build_images_builds G base pfx images cr push v out hlog hout cmd hcmd
    exact ⟨img, hi, by rw [hc], by rw [hc]⟩
  · unfold build_values
    rw [hlog, except_map_ok]

theorem c4_tag_and_values_witness :
    (∃ img ∈ [NAME],
        (⟨str "jupyterhub/k8s-binderhub:abc1234",
            str "BINDERHUB_VERSION=abc1234",
            str "/r/helm-chart/images/binderhub"⟩ : DockerCmd).tag
          = str "jupyterhub/k8s-" ++ img ++ ':' :: str "abc1234"
        ∧ (⟨str "jupyterhub/k8s-binderhub:abc1234",
            str "BINDERHUB_VERSION=abc1234",
            str "/r/helm-chart/images/binderhub"⟩ : DockerCmd).buildArg
          = str "BINDERHUB_VERSION=" ++ str "abc1234")
      ∧ build_values (okGit (str "abc1234")) (str "/r/helm-chart")
          (str "jupyterhub/k8s-") ⟨str "n0", str "t0", []⟩
        = Except.ok ⟨str "jupyterhub/k8s-binderhub", str "abc1234", []⟩ := by
  have h := c4_tag_and_values (okGit (str "abc1234")) (str "/r/helm-chart")
    (str "jupyterhub/k8s-") [NAME] none false (str "abc1234")
    ⟨[⟨str "jupyterhub/k8s-binderhub:abc1234", str "BINDERHUB_VERSION=abc1234",
        str "/r/helm-chart/images/binderhub"⟩], [], []⟩
    ⟨str "jupyterhub/k8s-binderhub:abc1234", str "BINDERHUB_VERSION=abc1234",
      str "/r/helm-chart/images/binderhub"⟩
    ⟨str "n0", str "t0", []⟩ (by decide) (by decide) (by decide)
  refine ⟨h.1, ?_⟩
  rw [h.2]
  decide

/-! ## Claim C5 -/

/-- Claim C5: when the repository history contains no commit touching any
of the queried paths (for instance an empty history), the log facility
fails and `last_git_modified` surfaces the failure to its caller instead
of returning a value. Settled against the log facility modelled from the
spec. -/
theorem c5_no_entry_fails (repo : Repo) (paths : List Str)
    (h : ∀ c ∈ repo, touches c paths = false) :
    last_git_modified (gitOfRepo repo) paths
      = Except.error (str "git log: no entry touching the given paths") := by
  have hf : repo.find? (fun c => touches c paths) = none := by
    rw [List.find?_eq_none]
    intro c hc
    simp [h c hc]
  have hrw : last_git_modified (gitOfRepo repo) paths = gitLogRepo repo paths :=
    rfl
  rw [hrw]
  unfold gitLogRepo
  rw [hf]

theorem c5_no_entry_fails_witness :
    (∀ c ∈ ([] : Repo), touches c [str "setup.py"] = false)
      ∧ last_git_modified (gitOfRepo []) [str "setup.py"]
        = Except.error (str "git log: no entry touching the given paths") :=
  ⟨by decide, c5_no_entry_fails [] [str "setup.py"] (by decide)⟩

/-! ## Claim C6 -/

/-- The repository history exhibiting the divergence of claim C6: the most
recent commit touches only helm-chart/build.py, a path inside BASEPATH but
outside every CHART_FILES entry; an older commit touches the Python
package. -/
def repoC6 : Repo :=
  [⟨str "bbb2222", [str "/r/helm-chart/build.py"]⟩,
    ⟨str "aaa1111", [str "/r/binderhub/app.py"]⟩]

/-- Claim C6 divergence: `build_chart` stamps the identifier computed over
`[BASEPATH] + IMAGE_FILES`, not over `CHART_FILES` (which the source
defines for this purpose and never uses): on `repoC6` the stamped suffix
is the hash of the commit touching only build.py, while the most recent
commit touching `CHART_FILES` is the older one. -/
theorem c6_wrong_path_set :
    (build_chart (gitOfRepo repoC6) (str "/r/helm-chart")
        ⟨str "0.1.0-old", []⟩).map (fun r => r.1.version)
      = Except.ok (str "0.1.0-bbb2222")
    ∧ gitLogRepo repoC6 (CHART_FILES (str "/r/helm-chart"))
      = Except.ok (str "aaa1111")
    ∧ str "0.1.0-bbb2222"
      ≠ beforeFirstHyphen (str "0.1.0-old") ++ '-' :: str "aaa1111" := by
  decide

/-! ## Claim C7 -/

/-- Claim C7: with an unchanged source tree (the version stamper returns
the same identifiers on both runs), running `build_values` and
`build_chart` twice in succession leaves both documents with content
identical to that after the first run. -/
theorem c7_stamp_idempotent (G : Git) (base pfx : Str) (values : ValuesDoc)
    (chart : ChartDoc) (t v : Str)
    (hlogI : last_git_modified G (IMAGE_FILES base) = Except.ok t)
    (hlogC : last_git_modified G (base :: IMAGE_FILES base) = Except.ok v) :
    (build_values G base pfx values).bind (build_values G base pfx)
        = build_values G base pfx values
      ∧ ((build_chart G base chart).map (fun r => r.1)).bind
          (fun c1 => (build_chart G base c1).map (fun r => r.1))
        = (build_chart G base chart).map (fun r => r.1) := by
  constructor
  · unfold build_values
    rw [hlogI]
    rfl
  · unfold build_chart
    rw [hlogC]
    simp only [Except.map, Except.bind]
    rw [stamp_head '-' chart.version v]

theorem c7_stamp_idempotent_witness :
    (build_values (okGit (str "abc1234")) (str "/r/helm-chart")
          (str "jupyterhub/k8s-") ⟨str "n0", str "t0", []⟩).bind
        (build_values (okGit (str "abc1234")) (str "/r/helm-chart")
          (str "jupyterhub/k8s-"))
      = build_values (okGit (str "abc1234")) (str "/r/helm-chart")
          (str "jupyterhub/k8s-") ⟨str "n0", str "t0", []⟩
    ∧ ((build_chart (okGit (str "abc1234")) (str "/r/helm-chart")
          ⟨str "1.2.3-abc123", []⟩).map (fun r => r.1)).bind
        (fun c1 => (build_chart (okGit (str "abc1234")) (str "/r/helm-chart")
          c1).map (fun r => r.1))
      = (build_chart (okGit (str "abc1234")) (str "/r/helm-chart")
          ⟨str "1.2.3-abc123", []⟩).map (fun r => r.1) :=
  c7_stamp_idempotent (okGit (str "abc1234")) (str "/r/helm-chart")
    (str "jupyterhub/k8s-") ⟨str "n0", str "t0", []⟩ ⟨str "1.2.3-abc123", []⟩
    (str "abc1234") (str "abc1234") (by decide) (by decide)

/-! ## Claim C8 -/

theorem build_one_no_push (G : Git) (base pfx img : Str) (cr : Option Str)
    (o : BuildImagesOut)
    (ho : build_one G base pfx img cr false = Except.ok o) :
    o.pushes = [] := by
  unfold build_one at ho
  cases hl : last_git_modified G (IMAGE_FILES base) with
  | error e =>
    rw [hl] at ho
    cases cr with
    | none => exact Except.noConfusion ho
    | some r =>
      by_cases hrnil : r = []
      · subst hrnil
        exact Except.noConfusion ho
      · have hre : r.isEmpty = false := by
          cases r with
          | nil => exact absurd rfl hrnil
          | cons a l => rfl
        simp only [hre, Bool.false_eq_true, if_false] at ho
        cases hd : G.diff (IMAGE_FILES base) r with
        | error e2 =>
          rw [path_changed, hd, except_map_error, except_bind_error] at ho
          exact Except.noConfusion ho
        | ok out =>
          rw [path_changed, hd, except_map_ok, except_bind_ok] at ho
          cases hb : (pyStrip out).isEmpty with
          | true =>
            rw [hb] at ho
            injection ho with ho
            subst ho
            rfl
          | false =>
            rw [hb] at ho
            exact Except.noConfusion ho
  | ok v =>
    rw [hl] at ho
    cases cr with
    | none =>
      injection ho with ho
      subst ho
      rfl
    | some r =>
      by_cases hrnil : r = []
      · subst hrnil
        injection ho with ho
        subst ho
        rfl
      · have hre : r.isEmpty = false := by
          cases r with
          | nil => exact absurd rfl hrnil
          | cons a l => rfl
        simp only [hre, Bool.false_eq_true, if_false] at ho
        cases hd : G.diff (IMAGE_FILES base) r with
        | error e2 =>
          rw [path_changed, hd, except_map_error, except_bind_error] at ho
          exact Except.noConfusion ho
        | ok out =>
          rw [path_changed, hd, except_map_ok, except_bind_ok] at ho
          cases hb : (pyStrip out).isEmpty with
          | true =>
            rw [hb] at ho
            injection ho with ho
            subst ho
            rfl
          | false =>
            rw [hb] at ho
            injection ho with ho
            subst ho
            rfl

theorem build_images_no_push (G : Git) (base pfx : Str) (images : List Str)
    (cr : Option Str) (out : BuildImagesOut)
    (hout : build_images G base pfx images cr false = Except.ok out) :
    out.pushes = [] := by
  induction images generalizing out with
  | nil =>
    injection hout with h
    subst h
    rfl
  | cons img rest ih =>
    unfold build_images at hout
    cases h1 : build_one G base pfx img cr false with
    | error e =>
      rw [h1, except_bind_error] at hout
      exact Except.noConfusion hout
    | ok cur =>
      rw [h1, except_bind_ok] at hout
      cases h2 : build_images G base pfx rest cr false with
      | error e =>
        rw [h2, except_map_error] at hout
        exact Except.noConfusion hout
      | ok o2 =>
        rw [h2, except_map_ok] at hout
        injection hout with h
        subst h
        show cur.pushes ++ o2.pushes = []
        rw [build_one_no_push G base pfx img cr cur h1,
          ih o2 h2, List.append_nil]

/-- Claim C8: a `build` invocation with the push flag unset performs no
container registry push and never invokes the publish stage; only the
image build trace and the two manifest rewrites remain. -/
theorem c8_no_push_no_publish (G : Git) (base pfx : Str) (cr : Option Str)
    (values : ValuesDoc) (chart : ChartDoc) (res : BuildResult)
    (h : run_build G base pfx cr false values chart = Except.ok res) :
    res.images.pushes = [] ∧ res.publishInvoked = false := by
  unfold run_build at h
  cases h1 : build_images G base pfx [NAME] cr false with
  | error e =>
    rw [h1, except_bind_error] at h
    exact Except.noConfusion h
  | ok imgs =>
    rw [h1] at h
    simp only [except_bind_ok] at h
    cases h2 : build_values G base pfx values with
    | error e =>
      rw [h2, except_bind_error] at h
      exact Except.noConfusion h
    | ok vals =>
      rw [h2] at h
      simp only [except_bind_ok] at h
      cases h3 : build_chart G base chart with
      | error e =>
        rw [h3, except_map_error] at h
        exact Except.noConfusion h
      | ok pr =>
        rw [h3] at h
        simp only [except_map_ok] at h
        injection h with h
        subst h
        exact ⟨build_images_no_push G base pfx [NAME] cr imgs h1, rfl⟩

theorem c8_no_push_no_publish_witness :
    (⟨⟨[⟨str "jupyterhub/k8s-binderhub:abc1234",
          str "BINDERHUB_VERSION=abc1234",
          str "/r/helm-chart/images/binderhub"⟩], [], []⟩,
        ⟨str "jupyterhub/k8s-binderhub", str "abc1234", []⟩,
        ⟨str "1.2.3-abc1234", []⟩, str "1.2.3-old", false⟩
          : BuildResult).images.pushes = []
    ∧ (⟨⟨[⟨str "jupyterhub/k8s-binderhub:abc1234",
          str "BINDERHUB_VERSION=abc1234",
          str "/r/helm-chart/images/binderhub"⟩], [], []⟩,
        ⟨str "jupyterhub/k8s-binderhub", str "abc1234", []⟩,
        ⟨str "1.2.3-abc1234", []⟩, str "1.2.3-old", false⟩
          : BuildResult).publishInvoked = false :=
  c8_no_push_no_publish (okGit (str "abc1234")) (str "/r/helm-chart")
    (str "jupyterhub/k8s-") none ⟨str "n0", str "t0", []⟩ ⟨str "1.2.3-old", []⟩
    _ (by decide)

/-! ## Claim C9 -/

/-- Claim C9 counterexample: a whitespace-only diff output is non-empty
text, yet `path_changed` returns false, because the script strips the
output before comparing it to the empty string. -/
theorem c9_counterexample :
    (diffGit (str "\n")).diff [SETUP_PY (str "/r/helm-chart")] (str "a..b")
        = Except.ok (str "\n")
      ∧ str "\n" ≠ []
      ∧ path_changed (diffGit (str "\n")) [SETUP_PY (str "/r/helm-chart")]
          (str "a..b") = Except.ok false := by decide

/-- Claim C9 (amended): whenever the diff invocation succeeds,
`path_changed` returns true iff the diff output is non-empty after
stripping whitespace. -/
theorem c9_changed_iff (G : Git) (paths : List Str) (r out : Str)
    (hdiff : G.diff paths r = Except.ok out) :
    (path_changed G paths r = Except.ok true ↔ pyStrip out ≠ []) := by
  unfold path_changed
  rw [hdiff, except_map_ok]
  cases hpe : pyStrip out with
  | nil => simp
  | cons a l => simp

theorem c9_changed_iff_witness :
    (path_changed (diffGit (str "a.py")) [SETUP_PY (str "/r/helm-chart")]
        (str "a..b") = Except.ok true
      ↔ pyStrip (str "a.py") ≠ []) :=
  c9_changed_iff (diffGit (str "a.py")) [SETUP_PY (str "/r/helm-chart")]
    (str "a..b") (str "a.py") (by decide)

/-! ## Claim C10 -/

/-- Claim C10: in the build subcommand the two manifest rewrites run
unconditionally after the image stage: even when a commit range is
supplied and the image build is skipped because nothing changed, the
values document and the chart version are still rewritten. -/
theorem c10_manifests_stamped_on_skip (G : Git) (base pfx : Str)
    (push : Bool) (r out t v : Str) (values : ValuesDoc) (chart : ChartDoc)
    (hr : r ≠ [])
    (hdiff : G.diff (IMAGE_FILES base) r = Except.ok out)
    (hempty : pyStrip out = [])
    (hlogI : last_git_modified G (IMAGE_FILES base) = Except.ok t)
    (hlogC : last_git_modified G (base :: IMAGE_FILES base) = Except.ok v) :
    run_build G base pfx (some r) push values chart
      = Except.ok
          ⟨⟨[], [], [skipMsg NAME r]⟩,
            { values with imageName := pfx ++ NAME, imageTag := t },
            { chart with
              version := beforeFirstHyphen chart.version ++ '-' :: v },
            chart.version, push⟩ := by
  unfold run_build
  rw [build_images_skip G base pfx [NAME] push r out hr hdiff hempty]
  simp only [except_bind_ok]
  unfold build_values
  rw [hlogI]
  simp only [except_map_ok, except_bind_ok]
  unfold build_chart
  rw [hlogC]
  simp only [except_map_ok, splitOnChar_headD]
  rfl

theorem c10_manifests_stamped_on_skip_witness :
    run_build (diffGit []) (str "/r/helm-chart") (str "jupyterhub/k8s-")
        (some (str "a..b")) false ⟨str "n0", str "t0", []⟩
        ⟨str "1.2.3-old", []⟩
      = Except.ok
          ⟨⟨[], [], [skipMsg NAME (str "a..b")]⟩,
            ⟨str "jupyterhub/k8s-binderhub", str "abc1234", []⟩,
            ⟨str "1.2.3-abc1234", []⟩, str "1.2.3-old", false⟩ := by
  have h := c10_manifests_stamped_on_skip (diffGit []) (str "/r/helm-chart")
    (str "jupyterhub/k8s-") false (str "a..b") [] (str "abc1234")
    (str "abc1234") ⟨str "n0", str "t0", []⟩ ⟨str "1.2.3-old", []⟩
    (by decide) (by decide) (by decide) (by decide) (by decide)
  rw [h]
  decide
